import Mathlib

/-!
Verification of the playback-session and telemetry state machine of the
VideoStreaming repository, embedded from
src/react-hls-player/src/components/MuxLikePlayer.js.

The embedding models:
* the analytics state held in the component (lines 23-27);
* trackEvent (lines 50-84);
* initializeVideo (lines 90-172);
* the Hls.Events.ERROR handler (lines 139-146);
* the waiting / canplay / timeupdate media-element handlers (lines 194-218);
* the session-end useEffect and its React cleanup semantics (lines 248-258).
-/

namespace MuxLikePlayer

/-- The analytics state of the component (lines 23-27).  `bufferingStart`
is absent from the initial object and set by the waiting handler; absence
is modelled as `none`.  Times are `Int` values of the wall clock
(JS Date.now), durations are `Int`. -/
structure Analytics where
  playTime : Int
  bufferingTime : Int
  totalEvents : Nat
  bufferingStart : Option Int
  deriving Repr, DecidableEq

/-- The initial analytics state (lines 23-27): all counters zero and no
open buffering window. -/
def initAnalytics : Analytics :=
  { playTime := 0, bufferingTime := 0, totalEvents := 0, bufferingStart := none }

/-- Outcome of one call to trackEvent (lines 50-84): the resulting
analytics state, whether a POST to /v1/analytics/events was issued,
whether the onAnalytics callback ran, and whether an error escaped the
call (the catch block swallows POST failures, so this is always false). -/
structure TrackOutcome where
  analytics : Analytics
  posted : Bool
  callbackCalled : Bool
  raised : Bool
  deriving Repr, DecidableEq

/-- trackEvent (lines 50-84).  `sessionId` is the closed-over session
identifier; `postOk` tells whether the awaited POST succeeds; `hasCallback`
tells whether an onAnalytics prop was supplied.  When `sessionId` is null
the function returns at line 51 before any other work.  Otherwise the POST
is issued; only on success are `totalEvents` incremented and the callback
invoked; a failure is caught and logged (line 82), never re-raised. -/
def trackEvent (sessionId : Option Nat) (postOk : Bool) (hasCallback : Bool)
    (a : Analytics) : TrackOutcome :=
  match sessionId with
  | none => { analytics := a, posted := false, callbackCalled := false, raised := false }
  | some _ =>
      if postOk then
        { analytics := { a with totalEvents := a.totalEvents + 1 },
          posted := true, callbackCalled := hasCallback, raised := false }
      else
        { analytics := a, posted := true, callbackCalled := false, raised := false }

/-- A buffering-relevant media-element notification with its wall-clock
timestamp (the Date.now() value read inside the handler): `waiting` and
`canplay` (lines 194-209). -/
inductive NativeEv where
  | waiting (now : Int)
  | canplay (now : Int)
  deriving Repr, DecidableEq

/-- The state update a waiting / canplay handler performs on the analytics
state (lines 194-209), ignoring the trackEvent side channel (which only
touches `totalEvents`).  waiting sets `bufferingStart := Date.now()`
unconditionally (line 196).  canplay adds `now - bufferingStart` to
`bufferingTime` and clears the window when one is open (lines 200-207) and
performs no state update otherwise (the setAnalytics call sits inside the
`if (bufferingStart)` guard).  The handlers are re-registered whenever
`analytics.bufferingStart` changes (dependency at line 245), so in the
sequential event model the closed-over `bufferingStart` is the current one. -/
def bufStep (a : Analytics) : NativeEv → Analytics
  | .waiting t => { a with bufferingStart := some t }
  | .canplay t =>
      match a.bufferingStart with
      | some s => { a with bufferingTime := a.bufferingTime + (t - s), bufferingStart := none }
      | none => a

/-- Run the waiting / canplay handlers over a whole notification sequence. -/
def bufRun (a : Analytics) : List NativeEv → Analytics
  | [] => a
  | e :: evs => bufRun (bufStep a e) evs

/-- Declarative extraction of the matched buffering windows of a
notification sequence: a canplay at time `t` closes the window opened by
the most recent preceding waiting (whose timestamp the open window holds),
yielding the pair `(start, stop)`; a canplay with no open window matches
nothing.  `win` is the initially open window, if any. -/
def windows (win : Option Int) : List NativeEv → List (Int × Int)
  | [] => []
  | .waiting t :: evs => windows (some t) evs
  | .canplay t :: evs =>
      match win with
      | some s => (s, t) :: windows none evs
      | none => windows none evs

/-- Total duration of a list of buffering windows. -/
def windowSum (ps : List (Int × Int)) : Int :=
  (ps.map fun p => p.2 - p.1).sum

/-- Wall-clock timestamp of a buffering notification. -/
def evTime : NativeEv → Int
  | .waiting t => t
  | .canplay t => t

/-- The notifications of a sequence carry non-decreasing wall-clock
timestamps, all at least `t0` (the clock does not run backwards across the
session). -/
def Chron : Int → List NativeEv → Prop
  | _, [] => True
  | t0, e :: evs => t0 ≤ evTime e ∧ Chron (evTime e) evs

/-- Any open buffering window in the state was opened no later than `t0`. -/
def StartOK (a : Analytics) (t0 : Int) : Prop :=
  ∀ s, a.bufferingStart = some s → s ≤ t0

/-- Wall-clock time after a notification sequence, starting from `t0`. -/
def lastTime : Int → List NativeEv → Int
  | t0, [] => t0
  | _, e :: evs => lastTime (evTime e) evs

/-- The timeupdate handler (lines 210-218) fires a heartbeat exactly when
`Math.floor(video.currentTime) % 10 === 0`.  The playback position is
modelled in milliseconds, so the floor to whole seconds is division by
1000. -/
def heartbeatFires (currentTimeMs : Nat) : Bool :=
  currentTimeMs / 1000 % 10 == 0

/-- Number of heartbeat events emitted over a sequence of timeupdate
notifications carrying the given playback positions (milliseconds). -/
def heartbeatCount (ts : List Nat) : Nat :=
  (ts.filter heartbeatFires).length

/-- Outcome of the Hls.Events.ERROR handler (lines 139-146): whether the
error was logged to the console, the user-visible error state set by
setError, whether the onError prop was called, and the list of analytics
event types passed to trackEvent by the handler. -/
structure HlsErrorOutcome where
  logged : Bool
  errorSet : Option String
  onErrorCalled : Bool
  tracked : List String
  deriving Repr, DecidableEq

/-- The Hls.Events.ERROR handler (lines 139-146).  Every error is logged
(line 140).  Only when `data.fatal` holds does the handler set the error
state, call onError and track an analytics event of type error; a
non-fatal error performs nothing beyond the log. -/
def hlsErrorHandler (fatal : Bool) : HlsErrorOutcome :=
  if fatal then
    { logged := true, errorSet := some "Failed to load video",
      onErrorCalled := true, tracked := ["error"] }
  else
    { logged := true, errorSet := none, onErrorCalled := false, tracked := [] }

/-- Asset status values of the backend metadata (GET /v1/video/assets). -/
inductive AssetStatus where
  | uploading
  | processing
  | ready
  | failed
  | deleted
  deriving Repr, DecidableEq

/-- The status string carried by the asset metadata, compared against the
literal at line 99. -/
def statusStr : AssetStatus → String
  | .uploading => "uploading"
  | .processing => "processing"
  | .ready => "ready"
  | .failed => "failed"
  | .deleted => "deleted"

/-- Outcome of initializeVideo (lines 90-172): the user-visible error
state, whether a POST to /v1/analytics/sessions was issued, the resulting
session identifier, and whether playback setup started (a source was
handed to the HLS engine or the native element). -/
structure InitOutcome where
  error : Option String
  sessionPosted : Bool
  sessionId : Option Nat
  playbackStarted : Bool
  deriving Repr, DecidableEq

/-- initializeVideo (lines 90-172) after a successful asset-metadata
fetch returning `status`.  When the status string differs from ready the
function sets the wait message and returns at line 101, before the
sessions POST, so no session is created and playback never starts.
Otherwise the sessions POST is issued; if it fails the catch at line 167
records the error message and `sessionId` stays null; on success the
session id is stored and playback is set up through the HLS engine or the
native fallback when either is available (lines 118-165). -/
def initializeVideo (status : AssetStatus) (sessionOk : Bool) (newSessionId : Nat)
    (hlsSupported nativeHlsSupported : Bool) : InitOutcome :=
  if statusStr status ≠ "ready" then
    { error := some ("Video is " ++ statusStr status ++ ". Please wait for processing to complete."),
      sessionPosted := false, sessionId := none, playbackStarted := false }
  else if ¬ sessionOk then
    { error := some "API call failed", sessionPosted := true,
      sessionId := none, playbackStarted := false }
  else if hlsSupported then
    { error := none, sessionPosted := true, sessionId := some newSessionId,
      playbackStarted := true }
  else if nativeHlsSupported then
    { error := none, sessionPosted := true, sessionId := some newSessionId,
      playbackStarted := true }
  else
    { error := some "HLS is not supported in this browser", sessionPosted := true,
      sessionId := some newSessionId, playbackStarted := false }

/-- Payload of a session_end analytics event (lines 251-255). -/
structure SessionEndPayload where
  total_play_time : Int
  total_buffering_time : Int
  total_events : Nat
  deriving Repr, DecidableEq

/-- The dependency tuple of the session-end useEffect (line 258):
`[sessionId, analytics, trackEvent]`.  React compares dependencies by
object identity, so the analytics object and the trackEvent callback are
carried as identity tokens; `analytics` is the snapshot the cleanup
closure would read when it emits. -/
structure EffectDeps where
  sessionId : Option Nat
  analyticsId : Nat
  analytics : Analytics
  trackEventId : Nat
  deriving Repr, DecidableEq

/-- React re-runs an effect when some dependency changed identity. -/
def depsChanged (d e : EffectDeps) : Bool :=
  d.sessionId != e.sessionId || d.analyticsId != e.analyticsId
    || d.trackEventId != e.trackEventId

/-- What one run of the session-end cleanup (lines 249-257) emits: a
session_end event with the closed-over aggregate metrics when the
closed-over `sessionId` is non-null, nothing otherwise. -/
def cleanupEmit (d : EffectDeps) : List SessionEndPayload :=
  match d.sessionId with
  | some _ =>
      [{ total_play_time := d.analytics.playTime,
         total_buffering_time := d.analytics.bufferingTime,
         total_events := d.analytics.totalEvents }]
  | none => []

/-- All session_end events emitted by the session-end effect over the life
of a mounted component, given the list of committed dependency tuples in
order (React semantics for an effect returning a cleanup: between two
consecutive commits the previous cleanup runs exactly when the
dependencies changed, with the previous closure; at unmount the last
cleanup runs unconditionally). -/
def sessionEndEvents : List EffectDeps → List SessionEndPayload
  | [] => []
  | [d] => cleanupEmit d
  | d1 :: d2 :: ds =>
      (if depsChanged d1 d2 then cleanupEmit d1 else []) ++ sessionEndEvents (d2 :: ds)

/-! ### Helper lemmas -/

theorem bufRun_append (a : Analytics) (l1 l2 : List NativeEv) :
    bufRun a (l1 ++ l2) = bufRun (bufRun a l1) l2 := by
  induction l1 generalizing a with
  | nil => rfl
  | cons e es ih => exact ih (bufStep a e)

theorem chron_append (l1 l2 : List NativeEv) :
    ∀ t0, Chron t0 (l1 ++ l2) → Chron t0 l1 ∧ Chron (lastTime t0 l1) l2 := by
  induction l1 with
  | nil => intro t0 h; exact ⟨trivial, h⟩
  | cons e es ih =>
    intro t0 h
    have h2 : t0 ≤ evTime e ∧ Chron (evTime e) (es ++ l2) := h
    obtain ⟨ha, hb⟩ := ih (evTime e) h2.2
    exact ⟨⟨h2.1, ha⟩, hb⟩

theorem bufRun_mono_aux (evs : List NativeEv) :
    ∀ (t0 : Int) (a : Analytics), StartOK a t0 → Chron t0 evs →
      a.bufferingTime ≤ (bufRun a evs).bufferingTime
      ∧ StartOK (bufRun a evs) (lastTime t0 evs) := by
  induction evs with
  | nil => intro t0 a hs _; exact ⟨le_refl _, hs⟩
  | cons e evs ih =>
    intro t0 a hs hc
    have hc2 : t0 ≤ evTime e ∧ Chron (evTime e) evs := hc
    cases e with
    | waiting t =>
      have hs2 : StartOK { a with bufferingStart := some t } t := by
        intro s h
        have hts : t = s := Option.some.inj h
        exact hts ▸ le_refl t
      exact ih t { a with bufferingStart := some t } hs2 hc2.2
    | canplay t =>
      cases hb : a.bufferingStart with
      | none =>
        have hstep : bufStep a (NativeEv.canplay t) = a := by
          simp [bufStep, hb]
        have hs2 : StartOK a t := by
          intro s h
          rw [hb] at h
          exact Option.noConfusion h
        have hg := ih t a hs2 hc2.2
        show a.bufferingTime ≤ (bufRun (bufStep a (NativeEv.canplay t)) evs).bufferingTime
          ∧ StartOK (bufRun (bufStep a (NativeEv.canplay t)) evs) (lastTime t evs)
        rw [hstep]
        exact hg
      | some s =>
        have hst : s ≤ t0 := hs s hb
        have htt : t0 ≤ t := hc2.1
        have hstep : bufStep a (NativeEv.canplay t)
            = { a with bufferingTime := a.bufferingTime + (t - s), bufferingStart := none } := by
          simp [bufStep, hb]
        have hs2 : StartOK { a with bufferingTime := a.bufferingTime + (t - s), bufferingStart := none } t := by
          intro u h
          exact Option.noConfusion h
        have hg := ih t { a with bufferingTime := a.bufferingTime + (t - s), bufferingStart := none } hs2 hc2.2
        show a.bufferingTime ≤ (bufRun (bufStep a (NativeEv.canplay t)) evs).bufferingTime
          ∧ StartOK (bufRun (bufStep a (NativeEv.canplay t)) evs) (lastTime t evs)
        rw [hstep]
        refine ⟨le_trans ?_ hg.1, hg.2⟩
        show a.bufferingTime ≤ a.bufferingTime + (t - s)
        omega

theorem windows_spec (evs : List NativeEv) :
    ∀ a : Analytics,
      (bufRun a evs).bufferingTime
        = a.bufferingTime + windowSum (windows a.bufferingStart evs) := by
  induction evs with
  | nil => intro a; simp [bufRun, windows, windowSum]
  | cons e evs ih =>
    intro a
    cases e with
    | waiting t =>
      have h1 := ih { a with bufferingStart := some t }
      simpa [bufRun, bufStep, windows] using h1
    | canplay t =>
      cases hb : a.bufferingStart with
      | none =>
        have hstep : bufStep a (NativeEv.canplay t) = a := by
          simp [bufStep, hb]
        have h1 := ih a
        rw [hb] at h1
        calc (bufRun a (NativeEv.canplay t :: evs)).bufferingTime
            = (bufRun (bufStep a (NativeEv.canplay t)) evs).bufferingTime := rfl
          _ = (bufRun a evs).bufferingTime := by rw [hstep]
          _ = a.bufferingTime + windowSum (windows none evs) := h1
          _ = a.bufferingTime + windowSum (windows none (NativeEv.canplay t :: evs)) := by
              simp [windows]
      | some s =>
        have hstep : bufStep a (NativeEv.canplay t)
            = { a with bufferingTime := a.bufferingTime + (t - s), bufferingStart := none } := by
          simp [bufStep, hb]
        have h1 := ih { a with bufferingTime := a.bufferingTime + (t - s), bufferingStart := none }
        calc (bufRun a (NativeEv.canplay t :: evs)).bufferingTime
            = (bufRun (bufStep a (NativeEv.canplay t)) evs).bufferingTime := rfl
          _ = (bufRun
                { a with bufferingTime := a.bufferingTime + (t - s), bufferingStart := none }
                evs).bufferingTime := by rw [hstep]
          _ = a.bufferingTime + (t - s) + windowSum (windows none evs) := h1
          _ = a.bufferingTime + windowSum (windows (some s) (NativeEv.canplay t :: evs)) := by
              simp only [windows, windowSum, List.map_cons, List.sum_cons]
              ring

theorem sessionEndEvents_split (ds : List EffectDeps) :
    ∀ d : EffectDeps, ∃ pre, sessionEndEvents (ds ++ [d]) = pre ++ cleanupEmit d := by
  induction ds with
  | nil => intro d; exact ⟨[], rfl⟩
  | cons e es ih =>
    intro d
    cases es with
    | nil =>
      exact ⟨if depsChanged e d then cleanupEmit e else [], rfl⟩
    | cons f fs =>
      obtain ⟨pre, hp⟩ := ih d
      refine ⟨(if depsChanged e f then cleanupEmit e else []) ++ pre, ?_⟩
      show (if depsChanged e f then cleanupEmit e else []) ++ sessionEndEvents ((f :: fs) ++ [d])
        = (if depsChanged e f then cleanupEmit e else []) ++ pre ++ cleanupEmit d
      rw [hp, List.append_assoc]

/-! ### Claims -/

/-- C1: the claim says at most one session_end analytics event is emitted
per session over every sequence of effect re-runs.  The code violates
this: the session-end effect lists the mutable analytics object among its
dependencies, so its cleanup runs — and emits — at every analytics change
while `sessionId` is non-null, and once more at unmount.  Evaluating the
effect model on a session whose analytics object changes identity once
(after a single tracked event) and then unmounts yields two session_end
events. -/
theorem c1_session_end_emitted_twice :
    (sessionEndEvents
      [{ sessionId := some 1, analyticsId := 0, analytics := initAnalytics, trackEventId := 0 },
       { sessionId := some 1, analyticsId := 1,
         analytics := { playTime := 0, bufferingTime := 0, totalEvents := 1, bufferingStart := none },
         trackEventId := 0 }]).length = 2 := rfl

/-- C2 counterexample: after two back-to-back waiting notifications at
times 0 and 5, the open window's start is 5, not the first start 0 (the
second waiting is not ignored), and the canplay at time 10 adds duration
5, not the duration 10 measured from the first start. -/
theorem c2_counterexample :
    (bufRun initAnalytics [NativeEv.waiting 0, NativeEv.waiting 5]).bufferingStart = some 5
    ∧ some (5 : Int) ≠ some (0 : Int)
    ∧ (bufRun initAnalytics [NativeEv.waiting 0, NativeEv.waiting 5, NativeEv.canplay 10]).bufferingTime = 5
    ∧ (5 : Int) ≠ 10 - 0 := by
  refine ⟨rfl, by decide, rfl, by decide⟩

/-- C2 amended: when two buffering_start (waiting) notifications arrive
with no intervening buffering_end, the second is not ignored — it
overwrites the open window's start timestamp; the first buffering_end
(canplay) closes the single open window and the cumulative buffering time
added equals the duration measured from the second (most recent) start's
timestamp. -/
theorem c2_duplicate_start_overwrites (a : Analytics) (t1 t2 t3 : Int) :
    (bufRun a [NativeEv.waiting t1, NativeEv.waiting t2]).bufferingStart = some t2
    ∧ (bufRun a [NativeEv.waiting t1, NativeEv.waiting t2, NativeEv.canplay t3]).bufferingTime
        = a.bufferingTime + (t3 - t2)
    ∧ (bufRun a [NativeEv.waiting t1, NativeEv.waiting t2, NativeEv.canplay t3]).bufferingStart
        = none := by
  refine ⟨rfl, ?_, rfl⟩
  simp [bufRun, bufStep]

/-- C3: the claim says at most one heartbeat is emitted per 10-unit
boundary of the playback position.  The code fires a heartbeat on every
timeupdate notification whose floored position is a multiple of 10, so
two timeupdates at positions 10.1s and 10.4s — the same boundary, floor
10 — emit two heartbeats. -/
theorem c3_heartbeat_twice_per_boundary :
    heartbeatCount [10100, 10400] = 2 ∧ 10100 / 1000 = 10 ∧ 10400 / 1000 = 10 := by
  refine ⟨rfl, rfl, rfl⟩

/-- C4 counterexample: a non-fatal stream-engine error notification emits
no analytics event at all — the handler only logs it — refuting the claim
that an error or video_error event is still tracked for non-fatal engine
errors. -/
theorem c4_counterexample :
    (hlsErrorHandler false).tracked = [] ∧ (hlsErrorHandler false).logged = true := by
  exact ⟨rfl, rfl⟩

/-- C4 amended: a non-fatal stream-engine error is only logged: no
analytics event is emitted, the error state is untouched and the onError
prop is not called; a fatal error is logged, emits the analytics event of
type error, sets the user-visible error state and calls onError. -/
theorem c4_error_tracking (fatal : Bool) :
    (hlsErrorHandler fatal).logged = true
    ∧ (hlsErrorHandler fatal).tracked = (if fatal then ["error"] else [])
    ∧ (hlsErrorHandler fatal).errorSet = (if fatal then some "Failed to load video" else none)
    ∧ (hlsErrorHandler fatal).onErrorCalled = fatal := by
  cases fatal <;> simp [hlsErrorHandler]

/-- C5 counterexample: a fatal stream error during an active session does
not produce a session_end event at that transition: the error handler
tracks only an event of type error, and the re-render caused by setError
leaves the session-end effect's dependencies unchanged, so the cleanup
does not run — the only session_end of the trace is the later unmount
emission. -/
theorem c5_counterexample :
    "session_end" ∉ (hlsErrorHandler true).tracked
    ∧ (sessionEndEvents
        [{ sessionId := some 1, analyticsId := 0, analytics := initAnalytics, trackEventId := 0 },
         { sessionId := some 1, analyticsId := 0, analytics := initAnalytics, trackEventId := 0 }]).length
        = 1 := by
  refine ⟨by decide, rfl⟩

/-- C5 amended: session_end is emitted only by the session-end effect
cleanup — at unmount, and additionally at any dependency change while
`sessionId` is non-null, so possibly more than once; the unmount emission
is last and carries the final aggregate metrics total_play_time,
total_buffering_time and total_events from the closed-over analytics
snapshot.  A fatal stream error does not itself emit session_end: its
handler emits only an analytics event of type error. -/
theorem c5_session_end_on_unmount (ds : List EffectDeps) (d : EffectDeps)
    (h : d.sessionId.isSome) :
    (sessionEndEvents (ds ++ [d])).getLast?
      = some { total_play_time := d.analytics.playTime,
               total_buffering_time := d.analytics.bufferingTime,
               total_events := d.analytics.totalEvents }
    ∧ (hlsErrorHandler true).tracked = ["error"] := by
  obtain ⟨pre, hp⟩ := sessionEndEvents_split ds d
  obtain ⟨sid, hsid⟩ := Option.isSome_iff_exists.mp h
  have hce : cleanupEmit d
      = [{ total_play_time := d.analytics.playTime,
           total_buffering_time := d.analytics.bufferingTime,
           total_events := d.analytics.totalEvents }] := by
    simp [cleanupEmit, hsid]
  refine ⟨?_, rfl⟩
  rw [hp, hce]
  exact List.getLast?_concat pre

/-- C5 witness: the amended theorem at the one-commit trace of a session
with id 2 and final metrics play 0, buffering 4, events 5. -/
theorem c5_session_end_on_unmount_witness :
    (sessionEndEvents ([] ++
        [{ sessionId := some 2, analyticsId := 3,
           analytics := { playTime := 0, bufferingTime := 4, totalEvents := 5, bufferingStart := none },
           trackEventId := 0 }])).getLast?
      = some { total_play_time := 0, total_buffering_time := 4, total_events := 5 }
    ∧ (hlsErrorHandler true).tracked = ["error"] :=
  c5_session_end_on_unmount []
    { sessionId := some 2, analyticsId := 3,
      analytics := { playTime := 0, bufferingTime := 4, totalEvents := 5, bufferingStart := none },
      trackEventId := 0 } rfl

/-- C6: over every sequence of waiting / canplay notifications the
cumulative buffering time equals its initial value plus the sum of the
durations of the matched start/end windows of the sequence, and a canplay
arriving with no open window leaves the analytics state unchanged
(unmatched-end guard). -/
theorem c6_buffering_window_sum :
    (∀ (a : Analytics) (evs : List NativeEv),
        (bufRun a evs).bufferingTime
          = a.bufferingTime + windowSum (windows a.bufferingStart evs))
    ∧ ∀ (a : Analytics) (t : Int),
        a.bufferingStart = none → bufStep a (NativeEv.canplay t) = a :=
  ⟨fun a evs => windows_spec evs a, fun a t h => by simp [bufStep, h]⟩

/-- C6 witness: the window-sum identity on the sequence waiting at 2 then
canplay at 7 from the initial state, and the unmatched-end no-op on the
initial state. -/
theorem c6_buffering_window_sum_witness :
    (bufRun initAnalytics [NativeEv.waiting 2, NativeEv.canplay 7]).bufferingTime
      = initAnalytics.bufferingTime
        + windowSum (windows initAnalytics.bufferingStart [NativeEv.waiting 2, NativeEv.canplay 7])
    ∧ bufStep initAnalytics (NativeEv.canplay 3) = initAnalytics :=
  ⟨c6_buffering_window_sum.1 initAnalytics [NativeEv.waiting 2, NativeEv.canplay 7],
   c6_buffering_window_sum.2 initAnalytics 3 rfl⟩

/-- C7: when the asset metadata reports any status other than ready,
initializeVideo stops before opening a session: no POST to the sessions
endpoint is issued, `sessionId` stays null, playback is not started, and a
user-visible error/wait message is set. -/
theorem c7_not_ready_no_session (st : AssetStatus) (sessionOk : Bool) (sid : Nat)
    (hlsSupported nativeHlsSupported : Bool) (h : st ≠ AssetStatus.ready) :
    (initializeVideo st sessionOk sid hlsSupported nativeHlsSupported).sessionPosted = false
    ∧ (initializeVideo st sessionOk sid hlsSupported nativeHlsSupported).sessionId = none
    ∧ (initializeVideo st sessionOk sid hlsSupported nativeHlsSupported).playbackStarted = false
    ∧ (initializeVideo st sessionOk sid hlsSupported nativeHlsSupported).error.isSome = true := by
  have hstr : statusStr st ≠ "ready" := by
    cases st <;> simp_all [statusStr]
  rw [initializeVideo, if_pos hstr]
  exact ⟨rfl, rfl, rfl, rfl⟩

/-- C7 witness: the theorem at a processing asset. -/
theorem c7_not_ready_no_session_witness :
    (initializeVideo AssetStatus.processing true 7 true false).sessionPosted = false
    ∧ (initializeVideo AssetStatus.processing true 7 true false).sessionId = none
    ∧ (initializeVideo AssetStatus.processing true 7 true false).playbackStarted = false
    ∧ (initializeVideo AssetStatus.processing true 7 true false).error.isSome = true :=
  c7_not_ready_no_session AssetStatus.processing true 7 true false (by decide)

/-- C8: for every prefix of a chronologically timestamped waiting /
canplay notification sequence, the cumulative buffering time is
monotonically non-decreasing: the value after the prefix never exceeds
the value after the whole sequence, given that any initially open window
was opened no later than the clock origin. -/
theorem c8_bufferingTime_monotone (t0 : Int) (a : Analytics) (l1 l2 : List NativeEv)
    (hs : StartOK a t0) (hc : Chron t0 (l1 ++ l2)) :
    (bufRun a l1).bufferingTime ≤ (bufRun a (l1 ++ l2)).bufferingTime := by
  obtain ⟨h1, h2⟩ := chron_append l1 l2 t0 hc
  have hmid := bufRun_mono_aux l1 t0 a hs h1
  have hfin := bufRun_mono_aux l2 (lastTime t0 l1) (bufRun a l1) hmid.2 h2
  calc (bufRun a l1).bufferingTime
      ≤ (bufRun (bufRun a l1) l2).bufferingTime := hfin.1
    _ = (bufRun a (l1 ++ l2)).bufferingTime := by rw [bufRun_append]

/-- C8 witness: the monotonicity theorem on the prefix waiting at 1 of
the sequence waiting at 1 then canplay at 4, from the initial state. -/
theorem c8_bufferingTime_monotone_witness :
    (bufRun initAnalytics [NativeEv.waiting 1]).bufferingTime
      ≤ (bufRun initAnalytics ([NativeEv.waiting 1] ++ [NativeEv.canplay 4])).bufferingTime :=
  c8_bufferingTime_monotone 0 initAnalytics [NativeEv.waiting 1] [NativeEv.canplay 4]
    (fun s h => Option.noConfusion h)
    ⟨by decide, by decide, trivial⟩

/-- C9: an analytics event classified while `sessionId` is still null is
dropped silently: trackEvent issues no POST, changes no counter, calls no
callback and raises no error — the pre-active policy of the code is drop,
not queue. -/
theorem c9_pre_session_events_dropped (postOk hasCallback : Bool) (a : Analytics) :
    trackEvent none postOk hasCallback a
      = { analytics := a, posted := false, callbackCalled := false, raised := false } := rfl

/-- C10 counterexample: when the analytics POST for a classified event of
an active session fails, the total event counter is not incremented — it
stays at 0 rather than moving to 1 — refuting the claim that the
increment happens on every classified event including POST failures. -/
theorem c10_counterexample :
    (trackEvent (some 1) false false initAnalytics).analytics.totalEvents
      ≠ initAnalytics.totalEvents + 1 := by decide

/-- C10 amended: for a classified event of an active session, the total
event counter is incremented by exactly one when the analytics POST
succeeds and left unchanged when it fails; in either case the failure is
swallowed and no error escapes trackEvent. -/
theorem c10_total_events_increment (sid : Nat) (postOk hasCallback : Bool) (a : Analytics) :
    (trackEvent (some sid) postOk hasCallback a).analytics.totalEvents
      = (if postOk then a.totalEvents + 1 else a.totalEvents)
    ∧ (trackEvent (some sid) postOk hasCallback a).raised = false := by
  cases postOk <;> simp [trackEvent]

end MuxLikePlayer
